import Mathlib

/-!
Verification development for the SyncTeX decoder and its two geometric query
algorithms (source: src/components/synctexjs.ts).

The embedding is shallow: JS numbers are modelled as rationals (the source only
adds, subtracts, multiplies, divides and compares them), JS objects used as
dictionaries are modelled as association lists together with the ECMAScript
key-enumeration order (integer-like keys enumerate in ascending numeric order,
string keys in insertion order), and thrown JS errors are modelled by an
`Except` error type distinguishing the `SyncTexJsError` values thrown by the
source from the implicit `TypeError`s raised by the JS runtime on property
access or enumeration of `undefined`.
-/

set_option synthInstance.maxSize 512

namespace SyncTexJs

/-- Fixed conversion divisor of the format: `const unit = 65781.76` in the source. -/
def unit : ℚ := 6578176 / 100

/-- Sentinel constant `2e16` used by the source to seed reductions
(`cTop`, `cLeft` in `getCoveringRectangle`, `record.distance` in
`syncTexJsBackward`). -/
def sentinel : ℚ := 20000000000000000

/-- Outcome of a thrown JS error: `syncTexJsError` models a `SyncTexJsError`
explicitly thrown by the source, `typeError` models a `TypeError` raised by the
JS runtime itself (e.g. `Object.keys(undefined)` or reading a property of
`undefined`). -/
inductive JsError where
  | syncTexJsError (msg : String)
  | typeError (msg : String)
deriving Repr, DecidableEq

/-- Message of the `TypeError` raised by `Object.keys(undefined)`. -/
def typeErrorMsg : String := "Cannot convert undefined or null to object"

/-- Decidable equality of query outcomes (not provided for `Except` by core). -/
instance instDecidableEqExceptJs {ε α : Type} [DecidableEq ε] [DecidableEq α] :
    DecidableEq (Except ε α) := fun x y =>
  match x, y with
  | .ok a, .ok b =>
    if h : a = b then .isTrue (by rw [h]) else .isFalse (by simp [h])
  | .error a, .error b =>
    if h : a = b then .isTrue (by rw [h]) else .isFalse (by simp [h])
  | .ok _, .error _ => .isFalse (by simp)
  | .error _, .ok _ => .isFalse (by simp)

/-- Source type `Block`. The mutually-cyclic `parent` back-reference and the
owned `blocks`/`elements` child lists are not stored in the record: the parent
chain is represented by the parser's current-context stack (see
`CurrentElement`), and the child lists are never consulted by either query or
by any claim (the page table never receives blocks, see `parseStep`).
`file` is the resolved path of `files[fileNumber]`, which may be `undefined`
(`none`) for container blocks whose file id was never declared. -/
structure Block where
  type : String
  fileNumber : Nat
  file : Option String
  line : Nat
  left : ℚ
  bottom : ℚ
  width : Option ℚ
  height : ℚ
  depth : Option Int
  page : Nat
deriving Repr, DecidableEq

/-- Lookup `obj[k]` in a JS object modelled as an association list. -/
def objGet {κ α : Type} [DecidableEq κ] : List (κ × α) → κ → Option α
  | [], _ => none
  | (k', v) :: rest, k => if k' = k then some v else objGet rest k

/-- Assignment `obj[k] = v`: replaces the value in place when the key exists
(preserving its enumeration position), otherwise appends the new key. -/
def objSet {κ α : Type} [DecidableEq κ] : List (κ × α) → κ → α → List (κ × α)
  | [], k, v => [(k, v)]
  | (k', v') :: rest, k, v =>
    if k' = k then (k', v) :: rest else (k', v') :: objSet rest k v

/-- The key list `Object.keys(obj)` for a JS object whose keys are integer-like:
ECMAScript enumerates such keys in ascending numeric order regardless of
insertion order. (The additional explicit numeric sort performed by
`syncTexJsForward` is therefore the identity and is absorbed here.) -/
def objKeysNat {α : Type} (m : List (Nat × α)) : List Nat :=
  (m.map Prod.fst).insertionSort (· ≤ ·)

/-- Covering rectangle record returned by `getCoveringRectangle`. -/
structure Rect where
  top : ℚ
  bottom : ℚ
  left : ℚ
  right : ℚ
deriving Repr, DecidableEq

/-- One iteration of the loop body of `getCoveringRectangle`: each comparison
updates one accumulator field, and the `right` update only happens when
`b.width !== undefined`. -/
def coveringStep (r : Rect) (b : Block) : Rect :=
  let r1 := if r.bottom < b.bottom then { r with bottom := b.bottom } else r
  let r2 := if b.bottom - b.height < r1.top then { r1 with top := b.bottom - b.height } else r1
  let r3 := if b.left < r2.left then { r2 with left := b.left } else r2
  match b.width with
  | some w => if r3.right < b.left + w then { r3 with right := b.left + w } else r3
  | none => r3

/-- Source function `getCoveringRectangle`: a fold over the block list seeded
with the sentinel constants `cTop = 2e16`, `cBottom = 0`, `cLeft = 2e16`,
`cRight = 0`. -/
def getCoveringRectangle (blocks : List Block) : Rect :=
  blocks.foldl coveringStep ⟨sentinel, 0, sentinel, 0⟩

/-- Source type `Page` (the `blocks` list is omitted: the close-marker handler
only appends a finished block when `isBlock(currentElement.parent)` holds,
which is false for a `Page`, so a page's `blocks` list is never appended to). -/
structure Page where
  page : Nat
deriving Repr, DecidableEq

/-- Innermost map of the derived index: page number → ordered element list. -/
abbrev PageMap := List (Nat × List Block)

/-- Middle map of the derived index: line number → page buckets. -/
abbrev LineMap := List (Nat × PageMap)

/-- The derived index `blockNumberLine`: file path → line → page → elements.
The outer keys are file-path strings, enumerated in insertion order; the two
inner key levels are numeric, enumerated in ascending order (`objKeysNat`). -/
abbrev BlockNumberLine := List (String × LineMap)

/-- Source type `PdfSyncObject` (the `offset` record is flattened into
`offsetX`/`offsetY`). -/
structure PdfSyncObject where
  offsetX : ℚ
  offsetY : ℚ
  version : String
  files : List (Nat × String)
  pages : List (Nat × Page)
  blockNumberLine : BlockNumberLine
  hBlocks : List Block
  numberPages : Nat
deriving Repr, DecidableEq

/-- Result record of the forward query (`SyncTeXRecordForward`). -/
structure SyncTeXRecordForward where
  page : Nat
  x : ℚ
  y : ℚ
deriving Repr, DecidableEq

/-- Result record of the backward query (`SyncTeXRecordBackward`). -/
structure SyncTeXRecordBackward where
  input : String
  line : Nat
  column : Nat
deriving Repr, DecidableEq

/-- JS `Array.prototype.findIndex`, with `none` standing for the result `-1`. -/
def jsFindIndex {α : Type} (p : α → Bool) : List α → Option Nat
  | [] => none
  | x :: xs => if p x then some 0 else (jsFindIndex p xs).map (· + 1)

/-- Source function `syncTexJsForward` (the per-query re-parse of the sync file
is external input here: the query receives the already-built model).
Faithfulness notes, keyed to the source lines:
* `blockNumberLine[filePath]` being `undefined` makes the subsequent
  `Object.keys(undefined)` throw a `TypeError` (there is no explicit check);
* `findIndex` returning `-1` falls into the interpolation arm, where
  `lineNums[-2]` is `undefined` and `Object.keys(linePageBlocks[undefined])`
  throws a `TypeError`;
* `Object.keys(pageBlocks)[0]` is the numerically smallest page key
  (`objKeysNat`); an empty page map yields `undefined` and a `TypeError`
  downstream, and an empty bucket makes `blocks[0].page` throw. -/
def syncTexJsForward (line : Nat) (filePath : String) (obj : PdfSyncObject) :
    Except JsError SyncTeXRecordForward :=
  match objGet obj.blockNumberLine filePath with
  | none => .error (.typeError typeErrorMsg)
  | some linePageBlocks =>
    let lineNums : List Nat := objKeysNat linePageBlocks
    match jsFindIndex (fun x => decide (line ≤ x)) lineNums with
    | none => .error (.typeError typeErrorMsg)
    | some i =>
      if i = 0 ∨ lineNums.getD i 0 = line then
        let l := lineNums.getD i 0
        match objGet linePageBlocks l with
        | none => .error (.typeError typeErrorMsg)
        | some pageBlocks =>
          match objKeysNat pageBlocks with
          | [] => .error (.typeError typeErrorMsg)
          | page :: _ =>
            match objGet pageBlocks page with
            | none => .error (.typeError typeErrorMsg)
            | some blocks =>
              let c := getCoveringRectangle blocks
              match blocks with
              | [] => .error (.typeError "Cannot read properties of undefined (reading 'page')")
              | b0 :: _ => .ok ⟨b0.page, c.left + obj.offsetX, c.bottom + obj.offsetY⟩
      else
        let line0 := lineNums.getD (i - 1) 0
        match objGet linePageBlocks line0 with
        | none => .error (.typeError typeErrorMsg)
        | some pageBlocks0 =>
          match objKeysNat pageBlocks0 with
          | [] => .error (.typeError typeErrorMsg)
          | page0 :: _ =>
            match objGet pageBlocks0 page0 with
            | none => .error (.typeError typeErrorMsg)
            | some blocks0 =>
              let c0 := getCoveringRectangle blocks0
              let line1 := lineNums.getD i 0
              match objGet linePageBlocks line1 with
              | none => .error (.typeError typeErrorMsg)
              | some pageBlocks1 =>
                match objKeysNat pageBlocks1 with
                | [] => .error (.typeError typeErrorMsg)
                | page1 :: _ =>
                  match objGet pageBlocks1 page1 with
                  | none => .error (.typeError typeErrorMsg)
                  | some blocks1 =>
                    let c1 := getCoveringRectangle blocks1
                    let bottom :=
                      c0.bottom * (((line1 : ℚ) - (line : ℚ)) / ((line1 : ℚ) - (line0 : ℚ))) +
                      c1.bottom * (((line : ℚ) - (line0 : ℚ)) / ((line1 : ℚ) - (line0 : ℚ)))
                    match blocks1 with
                    | [] => .error (.typeError "Cannot read properties of undefined (reading 'page')")
                    | b1 :: _ => .ok ⟨b1.page, c1.left + obj.offsetX, bottom + obj.offsetY⟩

/-- The four inclusive comparisons of the containment test in
`syncTexJsBackward`, exactly as written in the source:
`box.bottom <= y0 && y0 <= box.top && box.left <= x0 && x0 <= box.right`. -/
def containsPoint (box : Rect) (x0 y0 : ℚ) : Bool :=
  decide (box.bottom ≤ y0) && decide (y0 ≤ box.top) &&
  decide (box.left ≤ x0) && decide (x0 ≤ box.right)

/-- The outside distance computed by the fallback arm of `syncTexJsBackward`:
`Math.max(box.bottom - y0, y0 - box.top, box.left - x0, x0 - box.right)`. -/
def outsideDistance (box : Rect) (x0 y0 : ℚ) : ℚ :=
  max (box.bottom - y0) (max (y0 - box.top) (max (box.left - x0) (x0 - box.right)))

/-- One (file, line, page)-bucket of the derived index as visited by the
backward scan. -/
structure Bucket where
  input : String
  line : Nat
  page : Nat
  blocks : List Block
deriving Repr, DecidableEq

/-- The buckets of the derived index in the order the triple loop of
`syncTexJsBackward` visits them: files in insertion order, then line keys and
page keys in the ascending numeric order `Object.keys` yields for integer-like
keys. A file whose line map is empty contributes no buckets (the `continue`). -/
def backwardBuckets (obj : PdfSyncObject) : List Bucket :=
  obj.blockNumberLine.flatMap fun fb =>
    (objKeysNat fb.2).flatMap fun lineNum =>
      match objGet fb.2 lineNum with
      | none => []
      | some pageBlocks =>
        (objKeysNat pageBlocks).flatMap fun pageNum =>
          match objGet pageBlocks pageNum with
          | none => []
          | some blocks => [⟨fb.1, lineNum, pageNum, blocks⟩]

/-- Mutable candidate record of the backward scan. -/
structure BackwardRecord where
  input : String
  line : Nat
  distance : ℚ
deriving Repr, DecidableEq

/-- Distinguishes the two ways `syncTexJsBackward` produces a result: the
immediate containment return inside the loop (`contained`), the
best-candidate return after the scan (`nearest`), and the exhausted-scan
failure (`err`, `record.input === ''`). -/
inductive BackwardOutcome where
  | contained (input : String) (line : Nat)
  | nearest (input : String) (line : Nat)
  | err
deriving Repr, DecidableEq

/-- The scan loop of `syncTexJsBackward` over the flattened bucket list:
skip buckets on other pages; return immediately on containment; otherwise
track the strictly smaller distance (first-encountered bucket kept on ties). -/
def backwardScan (page : Nat) (x0 y0 : ℚ) : List Bucket → BackwardRecord → BackwardOutcome
  | [], r => if r.input = "" then .err else .nearest r.input r.line
  | bk :: rest, r =>
    if bk.page = page then
      let box := getCoveringRectangle bk.blocks
      if containsPoint box x0 y0 then
        .contained bk.input bk.line
      else
        let dist := outsideDistance box x0 y0
        if dist < r.distance then backwardScan page x0 y0 rest ⟨bk.input, bk.line, dist⟩
        else backwardScan page x0 y0 rest r
    else backwardScan page x0 y0 rest r

/-- The scan of `syncTexJsBackward` started on the model's buckets with the
initial record `{input: '', line: 0, distance: 2e16}`, after translating the
query point by the calibration offset. -/
def syncTexJsBackwardOutcome (page : Nat) (x y : ℚ) (obj : PdfSyncObject) : BackwardOutcome :=
  backwardScan page (x - obj.offsetX) (y - obj.offsetY) (backwardBuckets obj) ⟨"", 0, sentinel⟩

/-- Source function `syncTexJsBackward` (model passed directly, as for the
forward query): empty index ⇒ first `SyncTexJsError`; otherwise run the scan;
an exhausted scan with `record.input === ''` ⇒ second `SyncTexJsError`. -/
def syncTexJsBackward (page : Nat) (x y : ℚ) (obj : PdfSyncObject) :
    Except JsError SyncTeXRecordBackward :=
  if obj.blockNumberLine.map Prod.fst = ([] : List String) then
    .error (.syncTexJsError "no entry of tex file found in the synctex file.")
  else
    match syncTexJsBackwardOutcome page x y obj with
    | .contained i l => .ok ⟨i, l, 0⟩
    | .nearest i l => .ok ⟨i, l, 0⟩
    | .err => .error (.syncTexJsError "cannot find any line to jump to.")

/-- A line of the sync file after the ordered, mutually-exclusive regex
classification of the parser loop, one constructor per pattern of the source:
* `input`    — `Input:([0-9]+):(.+)` (the path is at least one character);
* `offset`   — `(X|Y) Offset:([0-9]+)` (the axis group can only capture the
  literal `X` or `Y`);
* `openPage` / `closePage` — `\x7b([0-9]+)$` / `\x7d([0-9]+)$`;
* `openV`    — the vertical-block pattern, whose seven numeric groups
  (file id, line, left, bottom, width, height, depth) capture their signs;
* `closeV`   — a line ending in `]`;
* `openH`    — the horizontal-block pattern (six numeric groups, no depth);
* `closeH`   — a line ending in `)`;
* `element`  — the element pattern: the kind character, file id and line, then
  left and bottom whose minus signs are consumed OUTSIDE the capture groups
  (so the captured values are non-negative), and an optional width group;
* `other`    — a line matching no pattern, silently skipped.
A line producing `closePage` while no page is open falls through the guard
`match && currentPage !== undefined`; such a line matches none of the later
patterns (they need `[`, `(`, a trailing `]`/`)`, or a digit-comma pair the
form `\x7d<digits>` does not contain), so it is skipped; `parseStep` encodes
this as a no-op. -/
inductive SyncLine where
  | input (id : Nat) (path : String)
  | offset (axis : String) (raw : Nat)
  | openPage (page : Nat)
  | closePage (page : Nat)
  | openV (fileNum : Nat) (line : Nat) (left bottom w h d : Int)
  | closeV
  | openH (fileNum : Nat) (line : Nat) (left bottom w h : Int)
  | closeH
  | element (kind : String) (fileNum : Nat) (line : Nat) (left bottom : Nat) (w : Option Nat)
  | other
deriving Repr, DecidableEq

/-- The parser's `currentElement`: either a `Page` object or the innermost open
`Block` together with the stack of its open ancestors (the source's `parent`
chain, innermost first; the chain below the last open block ends at a page
object). `currentElement` being `undefined` is an `Option` around this type. -/
inductive CurrentElement where
  | page (p : Nat)
  | block (top : Block) (rest : List Block)
deriving Repr, DecidableEq

/-- The open-ancestor stack that a block newly opened under `ce` gets as its
parent chain. -/
def pushStack : CurrentElement → List Block
  | .page _ => []
  | .block t r => t :: r

/-- The close-marker action on `currentElement` (identical code for `]` and
`)` in the source): the finished block is appended to its parent's child list
and popped ONLY when `currentElement` is a block whose parent is itself a
block (`isBlock(currentElement.parent)`); when the parent is a page object the
guard fails and the marker does nothing — in particular a page's `blocks` list
is never appended to, and the appended-to parent lists are only reachable
through `pages`/`hBlocks` tree nodes no query reads, so they are not stored. -/
def popStack : Option CurrentElement → Option CurrentElement
  | some (.block _ (p :: r)) => some (.block p r)
  | ce => ce

/-- Mutable state of the parser loop. -/
structure ParseState where
  offsetX : ℚ
  offsetY : ℚ
  numberPages : Nat
  currentPage : Option Nat
  currentElement : Option CurrentElement
  files : List (Nat × String)
  pages : List (Nat × Page)
  blockNumberLine : BlockNumberLine
  hBlocks : List Block
deriving Repr, DecidableEq

/-- Initial parser state. -/
def initState : ParseState :=
  { offsetX := 0, offsetY := 0, numberPages := 0, currentPage := none,
    currentElement := none, files := [], pages := [], blockNumberLine := [],
    hBlocks := [] }

/-- The three init-if-undefined checks plus the `push` that record an element
in the derived index under (file path, line, page). -/
def bnlInsert (bnl : BlockNumberLine) (path : String) (line page : Nat) (e : Block) :
    BlockNumberLine :=
  let lpb := (objGet bnl path).getD []
  let pb := (objGet lpb line).getD []
  let bs := (objGet pb page).getD []
  objSet bnl path (objSet lpb line (objSet pb page (bs ++ [e])))

/-- One iteration of the parser loop of `parseSyncTex`, one arm per classifier
in source order. Error arms: the unreachable axis branch and the V-block,
H-block and element guards throw `SyncTexJsError`s with the source's (never
interpolated) messages; an element whose file id was never declared makes
`blockNumberLine[elem.file.path]` read `.path` of `undefined`, a `TypeError`. -/
def parseStep (s : ParseState) (l : SyncLine) : Except JsError ParseState :=
  match l with
  | .input id path => .ok { s with files := objSet s.files id path }
  | .offset axis raw =>
    if axis.toLower = "x" then .ok { s with offsetX := (raw : ℚ) / unit }
    else if axis.toLower = "y" then .ok { s with offsetY := (raw : ℚ) / unit }
    else .error (.syncTexJsError "never occur.")
  | .openPage n =>
    .ok { s with currentPage := some n,
                 numberPages := if s.numberPages < n then n else s.numberPages,
                 currentElement := some (.page n) }
  | .closePage n =>
    match s.currentPage with
    | some p => .ok { s with pages := objSet s.pages n ⟨p⟩, currentPage := none }
    | none => .ok s
  | .openV f ln a b w h d =>
    match s.currentPage, s.currentElement with
    | some pg, some ce =>
      let blk : Block :=
        { type := "vertical", fileNumber := f, file := objGet s.files f, line := ln,
          left := (a : ℚ) / unit, bottom := (b : ℚ) / unit,
          width := some ((w : ℚ) / unit), height := (h : ℚ) / unit,
          depth := some d, page := pg }
      .ok { s with currentElement := some (.block blk (pushStack ce)) }
    | _, _ =>
      .error (.syncTexJsError "Error: parse error at line ${i}. A new V block is not allowed here.")
  | .closeV => .ok { s with currentElement := popStack s.currentElement }
  | .openH f ln a b w h =>
    match s.currentPage, s.currentElement with
    | some pg, some ce =>
      let blk : Block :=
        { type := "horizontal", fileNumber := f, file := objGet s.files f, line := ln,
          left := (a : ℚ) / unit, bottom := (b : ℚ) / unit,
          width := some ((w : ℚ) / unit), height := (h : ℚ) / unit,
          depth := none, page := pg }
      .ok { s with currentElement := some (.block blk (pushStack ce)),
                   hBlocks := s.hBlocks ++ [blk] }
    | _, _ =>
      .error (.syncTexJsError "Error: parse error at line ${i}. A new H block is not allowed here.")
  | .closeH => .ok { s with currentElement := popStack s.currentElement }
  | .element kind f ln a b w =>
    match s.currentPage, s.currentElement with
    | some pg, some (.block top _) =>
      match objGet s.files f with
      | none => .error (.typeError "Cannot read properties of undefined (reading 'path')")
      | some path =>
        let elem : Block :=
          { type := kind, fileNumber := f, file := some path, line := ln,
            left := (a : ℚ) / unit, bottom := (b : ℚ) / unit,
            width := w.map (fun n => (n : ℚ) / unit), height := top.height,
            depth := none, page := pg }
        .ok { s with blockNumberLine := bnlInsert s.blockNumberLine path ln pg elem }
    | _, _ =>
      .error (.syncTexJsError "Error: parse error at line ${i}. A new element is not allowed here.")
  | .other => .ok s

/-- Replacement of the first occurrence of `pat` by `rep` in a character list
(helper for `jsReplaceFirst`). -/
def replaceFirstAux (pat rep : List Char) : List Char → List Char
  | [] => if pat = [] then rep else []
  | c :: cs =>
    if pat.isPrefixOf (c :: cs) then rep ++ (c :: cs).drop pat.length
    else c :: replaceFirstAux pat rep cs

/-- JS `String.prototype.replace` with a string pattern replaces only the
FIRST occurrence of the pattern (unlike Lean's `String.replace`, which
replaces every occurrence). -/
def jsReplaceFirst (s pat rep : String) : String :=
  ⟨replaceFirstAux pat.data rep.data s.data⟩

/-- Source function `parseSyncTex`. Its input text is split on newlines; line 0
is the version banner, stripped of the `SyncTeX Version:` prefix by a JS
first-occurrence replace, and the remaining classified lines drive the fold
over `parseStep`. -/
def parseSyncTex (versionLine : String) (lines : List SyncLine) :
    Except JsError PdfSyncObject := do
  let s ← lines.foldlM parseStep initState
  return { offsetX := s.offsetX, offsetY := s.offsetY,
           version := jsReplaceFirst versionLine "SyncTeX Version:" "",
           files := s.files, pages := s.pages,
           blockNumberLine := s.blockNumberLine, hBlocks := s.hBlocks,
           numberPages := s.numberPages }

/-! Analysis of `getCoveringRectangle`: the loop decomposes into four
independent one-dimensional reductions, each a fold of a clamped max/min. -/

/-- Max-accumulator update `if m < f b then f b else m` of the loop. -/
def maxStep (f : Block → ℚ) (m : ℚ) (b : Block) : ℚ :=
  if m < f b then f b else m

/-- Min-accumulator update `if f b < m then f b else m` of the loop. -/
def minStep (f : Block → ℚ) (m : ℚ) (b : Block) : ℚ :=
  if f b < m then f b else m

/-- The `cRight` update, which only fires when `b.width !== undefined`. -/
def stepRight (m : ℚ) (b : Block) : ℚ :=
  match b.width with
  | some w => if m < b.left + w then b.left + w else m
  | none => m

/-- One loop iteration acts independently on the four accumulator fields. -/
theorem coveringStep_eq (r : Rect) (b : Block) :
    coveringStep r b =
      ⟨minStep (fun a => a.bottom - a.height) r.top b, maxStep Block.bottom r.bottom b,
       minStep Block.left r.left b, stepRight r.right b⟩ := by
  unfold coveringStep maxStep minStep stepRight
  cases hw : b.width <;> simp only [hw] <;> split_ifs <;> rfl

/-- The whole fold decomposes into four independent folds. -/
theorem foldl_coveringStep (l : List Block) (r : Rect) :
    l.foldl coveringStep r =
      ⟨l.foldl (minStep (fun a => a.bottom - a.height)) r.top,
       l.foldl (maxStep Block.bottom) r.bottom,
       l.foldl (minStep Block.left) r.left,
       l.foldl stepRight r.right⟩ := by
  induction l generalizing r with
  | nil => rfl
  | cons b t ih =>
    simp only [List.foldl_cons, ih, coveringStep_eq]

/-- The seed never decreases through a max fold. -/
theorem le_foldl_maxStep (f : Block → ℚ) (l : List Block) (a : ℚ) :
    a ≤ l.foldl (maxStep f) a := by
  induction l generalizing a with
  | nil => exact le_refl a
  | cons b t ih =>
    refine le_trans ?_ (ih (maxStep f a b))
    unfold maxStep
    split_ifs with h
    · exact le_of_lt h
    · exact le_refl a

/-- Every listed value is below the max fold's result. -/
theorem foldl_maxStep_le (f : Block → ℚ) {b : Block} {l : List Block}
    (hb : b ∈ l) (a : ℚ) : f b ≤ l.foldl (maxStep f) a := by
  induction l generalizing a with
  | nil => cases hb
  | cons c t ih =>
    rcases List.mem_cons.mp hb with h | h
    · subst h
      refine le_trans ?_ (le_foldl_maxStep f t (maxStep f a b))
      unfold maxStep
      split_ifs with h'
      · exact le_refl _
      · exact le_of_not_lt h'
    · exact ih h _

/-- The max fold's result is the seed or one of the listed values. -/
theorem foldl_maxStep_attained (f : Block → ℚ) (l : List Block) (a : ℚ) :
    l.foldl (maxStep f) a = a ∨ ∃ b ∈ l, l.foldl (maxStep f) a = f b := by
  induction l generalizing a with
  | nil => exact Or.inl rfl
  | cons c t ih =>
    simp only [List.foldl_cons]
    rcases ih (maxStep f a c) with h | ⟨b, hb, he⟩
    · rw [h]
      unfold maxStep
      split_ifs
      · exact Or.inr ⟨c, List.mem_cons_self _ _, rfl⟩
      · exact Or.inl rfl
    · exact Or.inr ⟨b, List.mem_cons_of_mem _ hb, he⟩

/-- The seed never increases through a min fold. -/
theorem foldl_minStep_le (f : Block → ℚ) (l : List Block) (a : ℚ) :
    l.foldl (minStep f) a ≤ a := by
  induction l generalizing a with
  | nil => exact le_refl a
  | cons b t ih =>
    refine le_trans (ih (minStep f a b)) ?_
    unfold minStep
    split_ifs with h
    · exact le_of_lt h
    · exact le_refl a

/-- The min fold's result is below every listed value. -/
theorem foldl_minStep_le_of_mem (f : Block → ℚ) {b : Block} {l : List Block}
    (hb : b ∈ l) (a : ℚ) : l.foldl (minStep f) a ≤ f b := by
  induction l generalizing a with
  | nil => cases hb
  | cons c t ih =>
    rcases List.mem_cons.mp hb with h | h
    · subst h
      refine le_trans (foldl_minStep_le f t (minStep f a b)) ?_
      unfold minStep
      split_ifs with h'
      · exact le_refl _
      · exact le_of_not_lt h'
    · exact ih h _

/-- The min fold's result is the seed or one of the listed values. -/
theorem foldl_minStep_attained (f : Block → ℚ) (l : List Block) (a : ℚ) :
    l.foldl (minStep f) a = a ∨ ∃ b ∈ l, l.foldl (minStep f) a = f b := by
  induction l generalizing a with
  | nil => exact Or.inl rfl
  | cons c t ih =>
    simp only [List.foldl_cons]
    rcases ih (minStep f a c) with h | ⟨b, hb, he⟩
    · rw [h]
      unfold minStep
      split_ifs
      · exact Or.inr ⟨c, List.mem_cons_self _ _, rfl⟩
      · exact Or.inl rfl
    · exact Or.inr ⟨b, List.mem_cons_of_mem _ hb, he⟩

/-- The seed never decreases through the `cRight` fold. -/
theorem le_foldl_stepRight (l : List Block) (a : ℚ) : a ≤ l.foldl stepRight a := by
  induction l generalizing a with
  | nil => exact le_refl a
  | cons b t ih =>
    refine le_trans ?_ (ih (stepRight a b))
    unfold stepRight
    cases hw : b.width with
    | none => exact le_refl a
    | some w =>
      dsimp only
      split_ifs with h
      · exact le_of_lt h
      · exact le_refl a

/-- Every width-defined block's right edge is below the `cRight` fold. -/
theorem foldl_stepRight_le {b : Block} {l : List Block} {w : ℚ}
    (hb : b ∈ l) (hw : b.width = some w) (a : ℚ) :
    b.left + w ≤ l.foldl stepRight a := by
  induction l generalizing a with
  | nil => cases hb
  | cons c t ih =>
    rcases List.mem_cons.mp hb with h | h
    · subst h
      refine le_trans ?_ (le_foldl_stepRight t (stepRight a b))
      unfold stepRight
      rw [hw]
      dsimp only
      split_ifs with h'
      · exact le_refl _
      · exact le_of_not_lt h'
    · exact ih h _

/-- The `cRight` fold's result is the seed or a width-defined right edge. -/
theorem foldl_stepRight_attained (l : List Block) (a : ℚ) :
    l.foldl stepRight a = a ∨
      ∃ b ∈ l, ∃ w, b.width = some w ∧ l.foldl stepRight a = b.left + w := by
  induction l generalizing a with
  | nil => exact Or.inl rfl
  | cons c t ih =>
    simp only [List.foldl_cons]
    rcases ih (stepRight a c) with h | ⟨b, hb, w, hw, he⟩
    · rw [h]
      unfold stepRight
      cases hwc : c.width with
      | none => exact Or.inl rfl
      | some w =>
        dsimp only
        split_ifs
        · exact Or.inr ⟨c, List.mem_cons_self _ _, w, hwc, rfl⟩
        · exact Or.inl rfl
    · exact Or.inr ⟨b, List.mem_cons_of_mem _ hb, w, hw, he⟩

/-- Field-wise description of `getCoveringRectangle` via the four folds. -/
theorem getCoveringRectangle_eq (l : List Block) :
    getCoveringRectangle l =
      ⟨l.foldl (minStep (fun a => a.bottom - a.height)) sentinel,
       l.foldl (maxStep Block.bottom) 0,
       l.foldl (minStep Block.left) sentinel,
       l.foldl stepRight 0⟩ :=
  foldl_coveringStep l ⟨sentinel, 0, sentinel, 0⟩

/-! Facts about key enumeration and `findIndex` needed for the forward query. -/

/-- The enumerated numeric key list is sorted ascending. -/
theorem objKeysNat_sorted {α : Type} (m : List (Nat × α)) :
    (objKeysNat m).Sorted (· ≤ ·) :=
  List.sorted_insertionSort _ _

/-- Membership in the enumerated numeric key list. -/
theorem mem_objKeysNat {α : Type} {m : List (Nat × α)} {k : Nat} :
    k ∈ objKeysNat m ↔ k ∈ m.map Prod.fst :=
  (List.perm_insertionSort _ _).mem_iff

/-- `findIndex` misses exactly when no element satisfies the predicate. -/
theorem jsFindIndex_eq_none {α : Type} {p : α → Bool} {l : List α}
    (h : ∀ a ∈ l, p a = false) : jsFindIndex p l = none := by
  induction l with
  | nil => rfl
  | cons x xs ih =>
    unfold jsFindIndex
    rw [h x (List.mem_cons_self _ _), ih fun a ha => h a (List.mem_cons_of_mem _ ha)]
    rfl

/-- Unfolding equation of `jsFindIndex` on a nonempty list. -/
theorem jsFindIndex_cons {α : Type} (p : α → Bool) (x : α) (xs : List α) :
    jsFindIndex p (x :: xs) =
      if p x then some 0 else (jsFindIndex p xs).map (· + 1) :=
  rfl

/-- On a sorted list containing `n`, the first element `≥ n` is `n` itself. -/
theorem jsFindIndex_exact {l : List Nat} {n : Nat}
    (hs : l.Sorted (· ≤ ·)) (hm : n ∈ l) :
    ∃ i, jsFindIndex (fun x => decide (n ≤ x)) l = some i ∧ l.getD i 0 = n := by
  induction l with
  | nil => cases hm
  | cons x xs ih =>
    by_cases hx : n ≤ x
    · refine ⟨0, ?_, ?_⟩
      · rw [jsFindIndex_cons, if_pos (decide_eq_true hx)]
      · have hxn : x ≤ n := by
          rcases List.mem_cons.mp hm with h | h
          · exact le_of_eq h.symm
          · exact List.rel_of_sorted_cons hs n h
        exact le_antisymm hxn hx
    · have hm' : n ∈ xs := by
        rcases List.mem_cons.mp hm with h | h
        · exact absurd (le_of_eq h) hx
        · exact h
      obtain ⟨i, hfi, hget⟩ := ih hs.of_cons hm'
      refine ⟨i + 1, ?_, hget⟩
      rw [jsFindIndex_cons, if_neg, hfi]
      · rfl
      · simp [hx]

/-- On a sorted list split as `pre ++ L0 :: L1 :: suf` with `L0 < n ≤ L1`, the
first element `≥ n` sits at index `pre.length + 1` (the position of `L1`). -/
theorem jsFindIndex_between {pre suf : List Nat} {L0 L1 n : Nat}
    (hs : (pre ++ L0 :: L1 :: suf).Sorted (· ≤ ·)) (h0 : L0 < n) (h1 : n ≤ L1) :
    jsFindIndex (fun x => decide (n ≤ x)) (pre ++ L0 :: L1 :: suf) =
      some (pre.length + 1) := by
  induction pre with
  | nil =>
    have hp0 : ¬ n ≤ L0 := not_le_of_lt h0
    simp [jsFindIndex_cons, hp0, h1]
  | cons q pre' ih =>
    have hq : q ≤ L0 := by
      refine List.rel_of_sorted_cons hs L0 ?_
      simp
    have hqn : ¬ n ≤ q := not_le_of_lt (lt_of_le_of_lt hq h0)
    rw [List.cons_append, jsFindIndex_cons, if_neg, ih hs.of_cons]
    · simp [Nat.add_comm]
    · simp [hqn]

/-- Indexing just past a prefix reads the first element after it. -/
theorem getD_append_length (pre rest : List Nat) :
    (pre ++ rest).getD pre.length 0 = rest.getD 0 0 := by
  induction pre with
  | nil => rfl
  | cons q pre' ih => simpa using ih

/-- Indexing one past a prefix reads the second element after it. -/
theorem getD_append_length_succ (pre rest : List Nat) :
    (pre ++ rest).getD (pre.length + 1) 0 = rest.getD 1 0 := by
  induction pre with
  | nil => rfl
  | cons q pre' ih => simpa using ih

/-- A key occurring in an association list has a lookup value. -/
theorem objGet_isSome_of_mem {κ α : Type} [DecidableEq κ] {m : List (κ × α)} {k : κ}
    (h : k ∈ m.map Prod.fst) : ∃ v, objGet m k = some v := by
  induction m with
  | nil => simp at h
  | cons e rest ih =>
    unfold objGet
    by_cases he : e.1 = k
    · exact ⟨e.2, by rw [if_pos he]⟩
    · have h' : k ∈ rest.map Prod.fst := by
        rcases List.mem_cons.mp h with h | h
        · exact absurd h.symm he
        · exact h
      obtain ⟨v, hv⟩ := ih h'
      exact ⟨v, by rw [if_neg he]; exact hv⟩

/-- A sorted list whose minimum is `p0` starts with `p0`. -/
theorem sorted_head_eq_min {l : List Nat} {p0 : Nat} (hs : l.Sorted (· ≤ ·))
    (hmem : p0 ∈ l) (hmin : ∀ q ∈ l, p0 ≤ q) : ∃ t, l = p0 :: t := by
  cases l with
  | nil => cases hmem
  | cons q t =>
    have hq : p0 ≤ q := hmin q (List.mem_cons_self _ _)
    have hqp : q ≤ p0 := by
      rcases List.mem_cons.mp hmem with h | h
      · exact le_of_eq h.symm
      · exact List.rel_of_sorted_cons hs p0 h
    exact ⟨t, by rw [le_antisymm hq hqp]⟩

/-- Core exact-path description of the forward query: when the requested line
is recorded for the file, the result is computed from the bucket of the first
enumerated page key, with no interpolation. -/
theorem forward_exact_core (m : PdfSyncObject) (fp : String) (line : Nat)
    (lpb : LineMap) (pm : PageMap) (p0 : Nat) (ps : List Nat) (b : Block) (bs : List Block)
    (hfp : objGet m.blockNumberLine fp = some lpb)
    (hmem : line ∈ lpb.map Prod.fst)
    (hpm : objGet lpb line = some pm)
    (hkeys : objKeysNat pm = p0 :: ps)
    (hbs : objGet pm p0 = some (b :: bs)) :
    syncTexJsForward line fp m =
      .ok ⟨b.page, (getCoveringRectangle (b :: bs)).left + m.offsetX,
           (getCoveringRectangle (b :: bs)).bottom + m.offsetY⟩ := by
  obtain ⟨i, hfi, hget⟩ :=
    jsFindIndex_exact (objKeysNat_sorted lpb) (mem_objKeysNat.mpr hmem)
  unfold syncTexJsForward
  rw [hfp]
  dsimp only
  rw [hfi]
  dsimp only
  rw [if_pos (Or.inr hget), hget, hpm]
  dsimp only
  rw [hkeys]
  dsimp only
  rw [hbs]

/-- Core interpolation-path description of the forward query: when the
requested line falls strictly between the adjacent recorded lines `L0 < L1`,
the result's page and x come from `L1`'s first page bucket and its y is the
linear interpolation of the two buckets' bottoms plus the offset. -/
theorem forward_interp_core (m : PdfSyncObject) (fp : String) (line : Nat)
    (lpb : LineMap) (pre suf : List Nat) (L0 L1 : Nat)
    (pm0 : PageMap) (p0 : Nat) (ps0 : List Nat) (bs0 : List Block)
    (pm1 : PageMap) (p1 : Nat) (ps1 : List Nat) (b1 : Block) (bs1 : List Block)
    (hfp : objGet m.blockNumberLine fp = some lpb)
    (hsort : objKeysNat lpb = pre ++ L0 :: L1 :: suf)
    (h0 : L0 < line) (h1 : line < L1)
    (hpm0 : objGet lpb L0 = some pm0)
    (hk0 : objKeysNat pm0 = p0 :: ps0)
    (hbs0 : objGet pm0 p0 = some bs0)
    (hpm1 : objGet lpb L1 = some pm1)
    (hk1 : objKeysNat pm1 = p1 :: ps1)
    (hbs1 : objGet pm1 p1 = some (b1 :: bs1)) :
    syncTexJsForward line fp m =
      .ok ⟨b1.page, (getCoveringRectangle (b1 :: bs1)).left + m.offsetX,
           (getCoveringRectangle bs0).bottom *
               (((L1 : ℚ) - (line : ℚ)) / ((L1 : ℚ) - (L0 : ℚ))) +
             (getCoveringRectangle (b1 :: bs1)).bottom *
               (((line : ℚ) - (L0 : ℚ)) / ((L1 : ℚ) - (L0 : ℚ))) +
             m.offsetY⟩ := by
  have hs : (pre ++ L0 :: L1 :: suf).Sorted (· ≤ ·) := by
    rw [← hsort]; exact objKeysNat_sorted lpb
  have hfi : jsFindIndex (fun x => decide (line ≤ x)) (objKeysNat lpb) =
      some (pre.length + 1) := by
    rw [hsort]; exact jsFindIndex_between hs h0 (le_of_lt h1)
  have hget1 : (objKeysNat lpb).getD (pre.length + 1) 0 = L1 := by
    rw [hsort, getD_append_length_succ]; rfl
  have hget0 : (objKeysNat lpb).getD (pre.length + 1 - 1) 0 = L0 := by
    rw [hsort]
    have : pre.length + 1 - 1 = pre.length := rfl
    rw [this, getD_append_length]; rfl
  have hcond : ¬ (pre.length + 1 = 0 ∨ (objKeysNat lpb).getD (pre.length + 1) 0 = line) := by
    rintro (h | h)
    · exact Nat.succ_ne_zero _ h
    · rw [hget1] at h
      exact absurd h (Nat.ne_of_gt h1)
  unfold syncTexJsForward
  rw [hfp]
  dsimp only
  rw [hfi]
  dsimp only
  rw [if_neg hcond, hget0, hpm0]
  dsimp only
  rw [hk0]
  dsimp only
  rw [hbs0, hget1, hpm1]
  dsimp only
  rw [hk1]
  dsimp only
  rw [hbs1]

/-- Convex-combination bound: with weights taken at a point strictly between
the endpoints, the interpolated value lies between the endpoint values. -/
theorem convex_comb_bounds (b0 b1 x0 x x1 : ℚ) (h0 : x0 < x) (h1 : x < x1) :
    min b0 b1 ≤ b0 * ((x1 - x) / (x1 - x0)) + b1 * ((x - x0) / (x1 - x0)) ∧
      b0 * ((x1 - x) / (x1 - x0)) + b1 * ((x - x0) / (x1 - x0)) ≤ max b0 b1 := by
  have hS : (0 : ℚ) < x1 - x0 := by linarith
  have ht0 : (0 : ℚ) ≤ (x - x0) / (x1 - x0) := by
    apply div_nonneg <;> linarith
  have ht1 : (x - x0) / (x1 - x0) ≤ 1 := by
    rw [div_le_one hS]; linarith
  have hrw : (x1 - x) / (x1 - x0) = 1 - (x - x0) / (x1 - x0) := by
    field_simp
  set t := (x - x0) / (x1 - x0) with hts
  rw [hrw]
  constructor
  · rcases le_total b0 b1 with h | h
    · rw [min_eq_left h]; nlinarith
    · rw [min_eq_right h]; nlinarith
  · rcases le_total b0 b1 with h | h
    · rw [max_eq_right h]; nlinarith
    · rw [max_eq_left h]; nlinarith

/-! Analysis of the backward scan. -/

/-- Every bucket's file name is a key of the derived index. -/
theorem backwardBuckets_input_mem {m : PdfSyncObject} {bk : Bucket}
    (h : bk ∈ backwardBuckets m) : bk.input ∈ m.blockNumberLine.map Prod.fst := by
  unfold backwardBuckets at h
  rw [List.mem_flatMap] at h
  obtain ⟨fb, hfb, h⟩ := h
  rw [List.mem_flatMap] at h
  obtain ⟨lineNum, _, h⟩ := h
  rcases hpb : objGet fb.2 lineNum with _ | pageBlocks
  · rw [hpb] at h; cases h
  · rw [hpb] at h
    rw [List.mem_flatMap] at h
    obtain ⟨pageNum, _, h⟩ := h
    rcases hbs : objGet pageBlocks pageNum with _ | blocks
    · rw [hbs] at h; cases h
    · rw [hbs] at h
      have he := List.mem_singleton.mp h
      rw [he]
      exact List.mem_map_of_mem Prod.fst hfb

/-- A scan started from a candidate with a nonempty file name never reports
`err`, provided every scanned bucket also has a nonempty file name. -/
theorem backwardScan_ne_err {page : Nat} {x0 y0 : ℚ} {L : List Bucket}
    {r : BackwardRecord} (hr : r.input ≠ "") (hL : ∀ bk ∈ L, bk.input ≠ "") :
    backwardScan page x0 y0 L r ≠ .err := by
  induction L generalizing r with
  | nil =>
    unfold backwardScan
    rw [if_neg hr]
    exact fun h => BackwardOutcome.noConfusion h
  | cons bk rest ih =>
    unfold backwardScan
    dsimp only
    have hrest : ∀ b ∈ rest, b.input ≠ "" := fun b hb => hL b (List.mem_cons_of_mem _ hb)
    split_ifs with hpage hcont hdist
    · exact fun h => BackwardOutcome.noConfusion h
    · exact ih (hL bk (List.mem_cons_self _ _)) hrest
    · exact ih hr hrest
    · exact ih hr hrest

/-- A scan started from the empty candidate reports `err` exactly when every
bucket on the requested page neither contains the point nor lies strictly
within the running distance threshold `d`. -/
theorem backwardScan_err_iff (page : Nat) (x0 y0 d : ℚ) (ln : Nat) {L : List Bucket}
    (hL : ∀ bk ∈ L, bk.input ≠ "") :
    backwardScan page x0 y0 L ⟨"", ln, d⟩ = .err ↔
      ∀ bk ∈ L, bk.page = page →
        containsPoint (getCoveringRectangle bk.blocks) x0 y0 = false ∧
        d ≤ outsideDistance (getCoveringRectangle bk.blocks) x0 y0 := by
  induction L generalizing ln d with
  | nil => simp [backwardScan]
  | cons bk rest ih =>
    have hrest : ∀ b ∈ rest, b.input ≠ "" := fun b hb => hL b (List.mem_cons_of_mem _ hb)
    unfold backwardScan
    dsimp only
    split_ifs with hpage hcont hdist
    · constructor
      · intro h; cases h
      · intro h
        have := (h bk (List.mem_cons_self _ _) hpage).1
        rw [hcont] at this
        cases this
    · constructor
      · intro h
        exact absurd h (backwardScan_ne_err (hL bk (List.mem_cons_self _ _)) hrest)
      · intro h
        have := (h bk (List.mem_cons_self _ _) hpage).2
        exact absurd hdist (not_lt_of_le this)
    · rw [ih d ln hrest]
      constructor
      · intro h
        intro b hb hbp
        rcases List.mem_cons.mp hb with he | he
        · subst he
          exact ⟨Bool.of_not_eq_true hcont, le_of_not_lt hdist⟩
        · exact h b he hbp
      · intro h b hb hbp
        exact h b (List.mem_cons_of_mem _ hb) hbp
    · rw [ih d ln hrest]
      constructor
      · intro h b hb hbp
        rcases List.mem_cons.mp hb with he | he
        · subst he
          exact absurd hbp hpage
        · exact h b he hbp
      · intro h b hb hbp
        exact h b (List.mem_cons_of_mem _ hb) hbp

/-! Claim C1. -/

/-- Single element of the C1 scenario: its covering rectangle is
left=0, right=10, bottom=10, top=0 on page 1. -/
def C1element : Block :=
  { type := "x", fileNumber := 1, file := some "main.tex", line := 3,
    left := 0, bottom := 10, width := some 10, height := 10, depth := none, page := 1 }

/-- Model of the C1 scenario: exactly one bucket on page 1, zero offset. -/
def C1model : PdfSyncObject :=
  { offsetX := 0, offsetY := 0, version := "", files := [(1, "main.tex")], pages := [],
    blockNumberLine := [("main.tex", [(3, [(1, [C1element])])])],
    hBlocks := [], numberPages := 1 }

/-- C1 counterexample: on the model with exactly one bucket on page 1 whose
covering rectangle is left=0, right=10, bottom=10, top=0, the query
backward(1, x=5, y=5) with zero offset is NOT returned through the
immediate-containment path: the source's containment test demands
`bottom ≤ y0 ≤ top`, which fails because the rectangle has bottom=10 > top=0,
so the scan's outcome is not `contained`. -/
theorem C1_counterexample :
    getCoveringRectangle [C1element] = ⟨0, 10, 0, 10⟩ ∧
    syncTexJsBackwardOutcome 1 5 5 C1model ≠ BackwardOutcome.contained "main.tex" 3 := by
  constructor
  · norm_num [getCoveringRectangle, coveringStep, C1element, sentinel]
  · norm_num [syncTexJsBackwardOutcome, backwardBuckets, backwardScan, C1model, C1element,
      objKeysNat, objGet, List.insertionSort, List.orderedInsert, getCoveringRectangle,
      coveringStep, containsPoint, outsideDistance, sentinel]
    decide

/-- C1 (amended): on that model, backward(1, x=5, y=5) returns the bucket's
(file, line) — but via the nearest-rectangle fallback path, not the
immediate-containment path, whose comparisons (`bottom ≤ y0 ≤ top`) cannot
accept a point of a rectangle with bottom=10 > top=0. -/
theorem C1_amended :
    syncTexJsBackwardOutcome 1 5 5 C1model = BackwardOutcome.nearest "main.tex" 3 ∧
    syncTexJsBackward 1 5 5 C1model = .ok ⟨"main.tex", 3, 0⟩ := by
  constructor
  · norm_num [syncTexJsBackwardOutcome, backwardBuckets, backwardScan, C1model, C1element,
      objKeysNat, objGet, List.insertionSort, List.orderedInsert, getCoveringRectangle,
      coveringStep, containsPoint, outsideDistance, sentinel]
    decide
  · norm_num [syncTexJsBackward, syncTexJsBackwardOutcome, backwardBuckets, backwardScan,
      C1model, C1element, objKeysNat, objGet, List.insertionSort, List.orderedInsert,
      getCoveringRectangle, coveringStep, containsPoint, outsideDistance, sentinel]
    decide

/-! Claim C2. -/

/-- A block with negative bottom, witnessing the sentinel seeding. -/
def C2block : Block :=
  { type := "x", fileNumber := 1, file := none, line := 1,
    left := 0, bottom := -1, width := none, height := 0, depth := none, page := 1 }

/-- C2 counterexample: for the single-block list `[C2block]` with
`bottom = -1`, the claimed reference formula gives bottom = max over the list
= −1, but the code's reduction is seeded with the sentinel 0 and returns 0. -/
theorem C2_counterexample :
    (getCoveringRectangle [C2block]).bottom ≠ C2block.bottom := by
  norm_num [getCoveringRectangle, coveringStep, C2block, sentinel]

/-- C2 (amended): for every non-empty block list, `getCoveringRectangle`
returns the max/min reductions SEEDED WITH THE SENTINELS 0 (bottom, right) and
2e16 (top, left) rather than ±infinity: each returned side bounds the
corresponding seed-extended value set and is attained by the seed or by a
listed block (`right` ranging only over blocks with a defined width). -/
theorem C2_amended (b : Block) (bs : List Block) :
    ((0 : ℚ) ≤ (getCoveringRectangle (b :: bs)).bottom ∧
      (∀ a ∈ b :: bs, a.bottom ≤ (getCoveringRectangle (b :: bs)).bottom) ∧
      ((getCoveringRectangle (b :: bs)).bottom = 0 ∨
        ∃ a ∈ b :: bs, (getCoveringRectangle (b :: bs)).bottom = a.bottom)) ∧
    ((getCoveringRectangle (b :: bs)).top ≤ sentinel ∧
      (∀ a ∈ b :: bs, (getCoveringRectangle (b :: bs)).top ≤ a.bottom - a.height) ∧
      ((getCoveringRectangle (b :: bs)).top = sentinel ∨
        ∃ a ∈ b :: bs, (getCoveringRectangle (b :: bs)).top = a.bottom - a.height)) ∧
    ((getCoveringRectangle (b :: bs)).left ≤ sentinel ∧
      (∀ a ∈ b :: bs, (getCoveringRectangle (b :: bs)).left ≤ a.left) ∧
      ((getCoveringRectangle (b :: bs)).left = sentinel ∨
        ∃ a ∈ b :: bs, (getCoveringRectangle (b :: bs)).left = a.left)) ∧
    ((0 : ℚ) ≤ (getCoveringRectangle (b :: bs)).right ∧
      (∀ a ∈ b :: bs, ∀ w, a.width = some w →
        a.left + w ≤ (getCoveringRectangle (b :: bs)).right) ∧
      ((getCoveringRectangle (b :: bs)).right = 0 ∨
        ∃ a ∈ b :: bs, ∃ w, a.width = some w ∧
          (getCoveringRectangle (b :: bs)).right = a.left + w)) := by
  rw [getCoveringRectangle_eq]
  dsimp only
  refine ⟨⟨?_, ?_, ?_⟩, ⟨?_, ?_, ?_⟩, ⟨?_, ?_, ?_⟩, ⟨?_, ?_, ?_⟩⟩
  · exact le_foldl_maxStep _ _ 0
  · exact fun a ha => foldl_maxStep_le _ ha 0
  · exact foldl_maxStep_attained _ _ 0
  · exact foldl_minStep_le _ _ sentinel
  · exact fun a ha => foldl_minStep_le_of_mem _ ha sentinel
  · exact foldl_minStep_attained _ _ sentinel
  · exact foldl_minStep_le _ _ sentinel
  · exact fun a ha => foldl_minStep_le_of_mem _ ha sentinel
  · exact foldl_minStep_attained _ _ sentinel
  · exact le_foldl_stepRight _ 0
  · exact fun a ha w hw => foldl_stepRight_le ha hw 0
  · exact foldl_stepRight_attained _ 0

/-! Claim C3. -/

/-- C3 counterexample: an input whose close marker `]` appears while only a
bare page (no block) is open parses SUCCESSFULLY — no FormatError is raised
and a model is returned, contradicting the claim that such input fails. -/
theorem C3_counterexample :
    parseSyncTex "SyncTeX Version:1" [SyncLine.openPage 1, SyncLine.closeV] =
      .ok { offsetX := 0, offsetY := 0, version := "1", files := [], pages := [],
            blockNumberLine := [], hBlocks := [], numberPages := 1 } := by
  norm_num [parseSyncTex, parseStep, initState, jsReplaceFirst, replaceFirstAux,
    popStack, List.foldlM, bind, Except.bind, pure, Except.pure]

/-- C3 (amended): a block close marker never causes a parse failure in any
parser state: the handler appends-and-pops when the current context is a block
nested inside another block, and otherwise silently ignores the marker. -/
theorem C3_amended (s : ParseState) :
    parseStep s SyncLine.closeV =
      .ok { s with currentElement := popStack s.currentElement } ∧
    parseStep s SyncLine.closeH =
      .ok { s with currentElement := popStack s.currentElement } :=
  ⟨rfl, rfl⟩

/-! Claim C4. -/

/-- C4: forward-search exactness — for every model and file path in the
derived index, querying a line that exactly equals a recorded line returns the
same (page, x, y) as directly computing the covering rectangle of that line's
first page bucket and adding the calibration offset: page is the bucket's
first element's page, x = rect.left + offsetX, y = rect.bottom + offsetY; the
interpolation path is not taken. -/
theorem C4_forward_exact (m : PdfSyncObject) (fp : String) (line : Nat)
    (lpb : LineMap) (pm : PageMap) (p0 : Nat) (ps : List Nat) (b : Block) (bs : List Block)
    (hfp : objGet m.blockNumberLine fp = some lpb)
    (hmem : line ∈ lpb.map Prod.fst)
    (hpm : objGet lpb line = some pm)
    (hkeys : objKeysNat pm = p0 :: ps)
    (hbs : objGet pm p0 = some (b :: bs)) :
    syncTexJsForward line fp m =
      .ok ⟨b.page, (getCoveringRectangle (b :: bs)).left + m.offsetX,
           (getCoveringRectangle (b :: bs)).bottom + m.offsetY⟩ :=
  forward_exact_core m fp line lpb pm p0 ps b bs hfp hmem hpm hkeys hbs

/-- Element of the C4 witness model. -/
def C4element : Block :=
  { type := "x", fileNumber := 1, file := some "main.tex", line := 3,
    left := 0, bottom := 10, width := some 10, height := 10, depth := none, page := 1 }

/-- Witness model for C4: one file, one recorded line 3, one page bucket. -/
def C4model : PdfSyncObject :=
  { offsetX := 0, offsetY := 0, version := "", files := [(1, "main.tex")], pages := [],
    blockNumberLine := [("main.tex", [(3, [(1, [C4element])])])],
    hBlocks := [], numberPages := 1 }

/-- Witness for C4 at the concrete model, querying exactly line 3. -/
theorem C4_witness :
    syncTexJsForward 3 "main.tex" C4model =
      .ok ⟨C4element.page, (getCoveringRectangle [C4element]).left + C4model.offsetX,
           (getCoveringRectangle [C4element]).bottom + C4model.offsetY⟩ :=
  C4_forward_exact C4model "main.tex" 3 [(3, [(1, [C4element])])] [(1, [C4element])] 1 []
    C4element [] (by decide) (by decide) (by decide) (by decide) (by decide)

/-! Claim C5. -/

/-- C5: forward-search interpolation bound — for every model, file path in the
index, and adjacent recorded lines L0 < L1, querying a line strictly between
them yields a y value lying between (inclusive) the y values the exact path
would return for L0 and L1 themselves (the interpolated bottom is a convex
combination of the two buckets' bottoms, plus the y offset). -/
theorem C5_interpolation_bound (m : PdfSyncObject) (fp : String) (line : Nat)
    (lpb : LineMap) (pre suf : List Nat) (L0 L1 : Nat)
    (pm0 : PageMap) (p0 : Nat) (ps0 : List Nat) (bs0 : List Block)
    (pm1 : PageMap) (p1 : Nat) (ps1 : List Nat) (b1 : Block) (bs1 : List Block)
    (hfp : objGet m.blockNumberLine fp = some lpb)
    (hsort : objKeysNat lpb = pre ++ L0 :: L1 :: suf)
    (h0 : L0 < line) (h1 : line < L1)
    (hpm0 : objGet lpb L0 = some pm0)
    (hk0 : objKeysNat pm0 = p0 :: ps0)
    (hbs0 : objGet pm0 p0 = some bs0)
    (hpm1 : objGet lpb L1 = some pm1)
    (hk1 : objKeysNat pm1 = p1 :: ps1)
    (hbs1 : objGet pm1 p1 = some (b1 :: bs1)) :
    ∃ r, syncTexJsForward line fp m = .ok r ∧
      min ((getCoveringRectangle bs0).bottom + m.offsetY)
          ((getCoveringRectangle (b1 :: bs1)).bottom + m.offsetY) ≤ r.y ∧
      r.y ≤ max ((getCoveringRectangle bs0).bottom + m.offsetY)
                ((getCoveringRectangle (b1 :: bs1)).bottom + m.offsetY) := by
  obtain ⟨hlo, hhi⟩ := convex_comb_bounds
    (getCoveringRectangle bs0).bottom (getCoveringRectangle (b1 :: bs1)).bottom
    (L0 : ℚ) (line : ℚ) (L1 : ℚ)
    (by exact_mod_cast h0) (by exact_mod_cast h1)
  refine ⟨_, forward_interp_core m fp line lpb pre suf L0 L1 pm0 p0 ps0 bs0 pm1 p1 ps1 b1 bs1
    hfp hsort h0 h1 hpm0 hk0 hbs0 hpm1 hk1 hbs1, ?_, ?_⟩
  · dsimp only
    rw [min_add_add_right]
    exact add_le_add_right hlo m.offsetY
  · dsimp only
    rw [max_add_add_right]
    exact add_le_add_right hhi m.offsetY

/-- Element recorded at line 3 for the C5 witness model. -/
def C5element3 : Block :=
  { type := "x", fileNumber := 1, file := some "main.tex", line := 3,
    left := 1, bottom := 20, width := some 2, height := 4, depth := none, page := 1 }

/-- Element recorded at line 7 for the C5 witness model. -/
def C5element7 : Block :=
  { type := "x", fileNumber := 1, file := some "main.tex", line := 7,
    left := 3, bottom := 40, width := some 2, height := 4, depth := none, page := 1 }

/-- Witness model for C5: recorded lines 3 and 7. -/
def C5model : PdfSyncObject :=
  { offsetX := 0, offsetY := 0, version := "", files := [(1, "main.tex")], pages := [],
    blockNumberLine := [("main.tex", [(3, [(1, [C5element3])]), (7, [(1, [C5element7])])])],
    hBlocks := [], numberPages := 1 }

/-- Witness for C5 at the concrete model, querying line 5 between 3 and 7. -/
theorem C5_witness :
    ∃ r, syncTexJsForward 5 "main.tex" C5model = .ok r ∧
      min ((getCoveringRectangle [C5element3]).bottom + C5model.offsetY)
          ((getCoveringRectangle [C5element7]).bottom + C5model.offsetY) ≤ r.y ∧
      r.y ≤ max ((getCoveringRectangle [C5element3]).bottom + C5model.offsetY)
                ((getCoveringRectangle [C5element7]).bottom + C5model.offsetY) :=
  C5_interpolation_bound C5model "main.tex" 5
    [(3, [(1, [C5element3])]), (7, [(1, [C5element7])])] [] [] 3 7
    [(1, [C5element3])] 1 [] [C5element3]
    [(1, [C5element7])] 1 [] C5element7 []
    (by decide) (by decide) (by decide) (by decide) (by decide) (by decide) (by decide)
    (by decide) (by decide) (by decide)

/-! Claim C6. -/

/-- Recognizer for an explicitly thrown `SyncTexJsError` result. -/
def isSyncTexJsError {α : Type} : Except JsError α → Bool
  | .error (.syncTexJsError _) => true
  | _ => false

/-- Model with an empty derived index for the C6 counterexample. -/
def C6model : PdfSyncObject :=
  { offsetX := 0, offsetY := 0, version := "", files := [], pages := [],
    blockNumberLine := [], hBlocks := [], numberPages := 0 }

/-- C6 counterexample: forward on a file path absent from the derived index
does NOT fail with the `SyncTexJsError` LookupError the claim names — the code
has no such check and instead dies with the runtime TypeError raised by
`Object.keys(undefined)`. -/
theorem C6_counterexample :
    isSyncTexJsError (syncTexJsForward 1 "foo.tex" C6model) = false ∧
    syncTexJsForward 1 "foo.tex" C6model = .error (.typeError typeErrorMsg) := by
  constructor
  · decide
  · decide

/-- C6 (amended): for every model and file path with no entry in the derived
index, forward fails — with the JS runtime TypeError from
`Object.keys(undefined)` rather than a `SyncTexJsError` — and returns no
coordinate result for any requested line. -/
theorem C6_amended (m : PdfSyncObject) (line : Nat) (fp : String)
    (hfp : objGet m.blockNumberLine fp = none) :
    syncTexJsForward line fp m = .error (.typeError typeErrorMsg) := by
  unfold syncTexJsForward
  rw [hfp]

/-- Witness for C6 at the concrete empty model. -/
theorem C6_witness :
    objGet C6model.blockNumberLine "foo.tex" = none ∧
    syncTexJsForward 1 "foo.tex" C6model = .error (.typeError typeErrorMsg) :=
  ⟨by decide, C6_amended C6model 1 "foo.tex" (by decide)⟩

/-! Claim C7. -/

/-- Element with a huge left coordinate for the C7 counterexample. -/
def C7element : Block :=
  { type := "x", fileNumber := 1, file := some "main.tex", line := 3,
    left := 30000000000000000, bottom := 1, width := none, height := 1,
    depth := none, page := 1 }

/-- Model for the C7 counterexample: one registered file and one bucket on
page 1 whose rectangle is farther than the 2e16 distance sentinel from the
query point. -/
def C7model : PdfSyncObject :=
  { offsetX := 0, offsetY := 0, version := "", files := [(1, "main.tex")], pages := [],
    blockNumberLine := [("main.tex", [(3, [(1, [C7element])])])],
    hBlocks := [], numberPages := 1 }

/-- C7 counterexample: the model has registered input files AND a bucket on
the requested page to compare against, yet backward(1, 0, 0) still fails with
the second LookupError, because the bucket's outside distance is at least the
2e16 seed of `record.distance`, so the candidate record is never filled in.
This contradicts the claim's 'in every other case it returns a result'. -/
theorem C7_counterexample :
    C7model.files ≠ [] ∧
    Bucket.mk "main.tex" 3 1 [C7element] ∈ backwardBuckets C7model ∧
    syncTexJsBackward 1 0 0 C7model =
      .error (.syncTexJsError "cannot find any line to jump to.") := by
  refine ⟨by decide, by decide, ?_⟩
  norm_num [syncTexJsBackward, syncTexJsBackwardOutcome, backwardBuckets, backwardScan,
    C7model, C7element, objKeysNat, objGet, List.insertionSort, List.orderedInsert,
    getCoveringRectangle, coveringStep, containsPoint, outsideDistance, sentinel]

/-- C7 (amended): provided every file name in the derived index is nonempty
(true of parsed models, whose input paths match a nonempty regex group),
backward(page, x, y) fails with a LookupError exactly when the derived index
has no file entries, or when every scanned bucket on the requested page
neither contains the translated point nor lies strictly within the 2e16
distance sentinel of it; in every other case it returns a result, always with
column = 0. -/
theorem C7_amended (m : PdfSyncObject) (page : Nat) (x y : ℚ)
    (hname : ∀ f ∈ m.blockNumberLine.map Prod.fst, f ≠ "") :
    ((∃ e, syncTexJsBackward page x y m = .error e) ↔
      (m.blockNumberLine = [] ∨
        ∀ bk ∈ backwardBuckets m, bk.page = page →
          containsPoint (getCoveringRectangle bk.blocks) (x - m.offsetX) (y - m.offsetY)
              = false ∧
          sentinel ≤
            outsideDistance (getCoveringRectangle bk.blocks) (x - m.offsetX)
              (y - m.offsetY))) ∧
    (∀ r, syncTexJsBackward page x y m = .ok r → r.column = 0) := by
  have hL : ∀ bk ∈ backwardBuckets m, bk.input ≠ "" :=
    fun bk hbk => hname bk.input (backwardBuckets_input_mem hbk)
  have hiff := backwardScan_err_iff page (x - m.offsetX) (y - m.offsetY) sentinel 0 hL
  unfold syncTexJsBackward syncTexJsBackwardOutcome
  by_cases hempty : m.blockNumberLine.map Prod.fst = ([] : List String)
  · rw [if_pos hempty]
    have hnil : m.blockNumberLine = [] := List.map_eq_nil_iff.mp hempty
    refine ⟨⟨fun _ => Or.inl hnil, fun _ => ⟨_, rfl⟩⟩, ?_⟩
    intro r hr
    cases hr
  · rw [if_neg hempty]
    have hnnil : m.blockNumberLine ≠ [] := by
      intro h
      exact hempty (by rw [h]; rfl)
    cases hout : backwardScan page (x - m.offsetX) (y - m.offsetY) (backwardBuckets m)
        ⟨"", 0, sentinel⟩ with
    | contained i l =>
      dsimp only
      refine ⟨⟨?_, ?_⟩, ?_⟩
      · rintro ⟨e, he⟩
        cases he
      · rintro (h | h)
        · exact absurd h hnnil
        · have hscan := hiff.mpr h
          rw [hout] at hscan
          cases hscan
      · intro r hr
        cases hr
        rfl
    | nearest i l =>
      dsimp only
      refine ⟨⟨?_, ?_⟩, ?_⟩
      · rintro ⟨e, he⟩
        cases he
      · rintro (h | h)
        · exact absurd h hnnil
        · have hscan := hiff.mpr h
          rw [hout] at hscan
          cases hscan
      · intro r hr
        cases hr
        rfl
    | err =>
      dsimp only
      refine ⟨⟨?_, ?_⟩, ?_⟩
      · intro _
        exact Or.inr (hiff.mp hout)
      · intro _
        exact ⟨_, rfl⟩
      · intro r hr
        cases hr

/-- Element of the C7 witness model. -/
def C7welement : Block :=
  { type := "x", fileNumber := 1, file := some "main.tex", line := 3,
    left := 0, bottom := 10, width := some 10, height := 10, depth := none, page := 1 }

/-- Witness model for C7: one nearby bucket on page 1. -/
def C7wmodel : PdfSyncObject :=
  { offsetX := 0, offsetY := 0, version := "", files := [(1, "main.tex")], pages := [],
    blockNumberLine := [("main.tex", [(3, [(1, [C7welement])])])],
    hBlocks := [], numberPages := 1 }

/-- Witness for C7 at the concrete one-bucket model and query (1, 5, 5). -/
theorem C7_witness :
    ((∃ e, syncTexJsBackward 1 5 5 C7wmodel = .error e) ↔
      (C7wmodel.blockNumberLine = [] ∨
        ∀ bk ∈ backwardBuckets C7wmodel, bk.page = 1 →
          containsPoint (getCoveringRectangle bk.blocks) (5 - C7wmodel.offsetX)
              (5 - C7wmodel.offsetY) = false ∧
          sentinel ≤
            outsideDistance (getCoveringRectangle bk.blocks) (5 - C7wmodel.offsetX)
              (5 - C7wmodel.offsetY))) ∧
    (∀ r, syncTexJsBackward 1 5 5 C7wmodel = .ok r → r.column = 0) :=
  C7_amended C7wmodel 1 5 5 (by decide)

/-! Claim C8. -/

/-- Sync lines recording content for (main.tex, line 5) first on page 2, then
on page 1: the page buckets are inserted in the order [2, 1]. -/
def C8lines : List SyncLine :=
  [SyncLine.input 1 "main.tex", SyncLine.openPage 2, SyncLine.openV 1 5 0 0 0 0 0,
   SyncLine.element "k" 1 5 0 0 none, SyncLine.openPage 1, SyncLine.openV 1 5 0 0 0 0 0,
   SyncLine.element "k" 1 5 0 0 none]

/-- The element recorded on page 2 (inserted first). -/
def C8element2 : Block :=
  { type := "k", fileNumber := 1, file := some "main.tex", line := 5,
    left := 0, bottom := 0, width := none, height := 0, depth := none, page := 2 }

/-- The element recorded on page 1 (inserted second). -/
def C8element1 : Block :=
  { type := "k", fileNumber := 1, file := some "main.tex", line := 5,
    left := 0, bottom := 0, width := none, height := 0, depth := none, page := 1 }

/-- The model parsed from `C8lines`: the line-5 page map stores page 2 before
page 1 (insertion order). -/
def C8model : PdfSyncObject :=
  { offsetX := 0, offsetY := 0, version := "v", files := [(1, "main.tex")], pages := [],
    blockNumberLine := [("main.tex", [(5, [(2, [C8element2]), (1, [C8element1])])])],
    hBlocks := [], numberPages := 2 }

/-- C8 counterexample: parsing `C8lines` records the line-5 page buckets in
insertion order [2, 1], yet forward(5) answers from the bucket of page 1 — the
numerically smallest page key, because `Object.keys` enumerates integer-like
keys in ascending order — not from the first-inserted bucket (page 2) the
claim specifies. -/
theorem C8_counterexample :
    parseSyncTex "v" C8lines = .ok C8model ∧
    C8model.blockNumberLine = [("main.tex", [(5, [(2, [C8element2]), (1, [C8element1])])])] ∧
    syncTexJsForward 5 "main.tex" C8model = .ok ⟨1, 0, 0⟩ ∧
    (1 : Nat) ≠ 2 := by
  refine ⟨?_, rfl, ?_, by decide⟩
  · norm_num [parseSyncTex, parseStep, initState, jsReplaceFirst, replaceFirstAux,
      popStack, pushStack, bnlInsert, objSet, objGet, unit, C8model, C8element1, C8element2,
      List.foldlM, bind, Except.bind, pure, Except.pure]
    decide
  · norm_num [syncTexJsForward, C8model, C8element1, C8element2, objKeysNat, objGet,
      List.insertionSort, List.orderedInsert, jsFindIndex, getCoveringRectangle,
      coveringStep, sentinel]

/-- C8 (amended): whenever a recorded line has buckets on more than one page,
forward uses only the bucket whose page number is smallest — `Object.keys`
enumerates the integer-like page keys in ascending numeric order, which
coincides with insertion order exactly when pages were recorded in ascending
order — and the returned page, covering rectangle, x and y all come from that
bucket, every other page bucket being ignored. -/
theorem C8_first_bucket_min_page (m : PdfSyncObject) (fp : String) (line : Nat)
    (lpb : LineMap) (pm : PageMap) (p0 : Nat) (b : Block) (bs : List Block)
    (hfp : objGet m.blockNumberLine fp = some lpb)
    (hmem : line ∈ lpb.map Prod.fst)
    (hpm : objGet lpb line = some pm)
    (hp0mem : p0 ∈ pm.map Prod.fst)
    (hp0min : ∀ q ∈ pm.map Prod.fst, p0 ≤ q)
    (hbs : objGet pm p0 = some (b :: bs)) :
    syncTexJsForward line fp m =
      .ok ⟨b.page, (getCoveringRectangle (b :: bs)).left + m.offsetX,
           (getCoveringRectangle (b :: bs)).bottom + m.offsetY⟩ := by
  obtain ⟨t, ht⟩ := sorted_head_eq_min (objKeysNat_sorted pm)
    (mem_objKeysNat.mpr hp0mem) (fun q hq => hp0min q (mem_objKeysNat.mp hq))
  exact forward_exact_core m fp line lpb pm p0 t b bs hfp hmem hpm ht hbs

/-- Witness for C8 at the concrete two-page model: page 1 is the minimum of
the page keys [2, 1] and the result is computed from its bucket. -/
theorem C8_witness :
    syncTexJsForward 5 "main.tex" C8model =
      .ok ⟨C8element1.page, (getCoveringRectangle [C8element1]).left + C8model.offsetX,
           (getCoveringRectangle [C8element1]).bottom + C8model.offsetY⟩ :=
  C8_first_bucket_min_page C8model "main.tex" 5
    [(5, [(2, [C8element2]), (1, [C8element1])])] [(2, [C8element2]), (1, [C8element1])]
    1 C8element1 []
    (by decide) (by decide) (by decide) (by decide) (by decide) (by decide)

/-! Claim C9. -/

/-- Block with negative height for the C9 counterexample. -/
def C9block : Block :=
  { type := "vertical", fileNumber := 1, file := none, line := 1,
    left := 0, bottom := 5, width := none, height := -3, depth := none, page := 1 }

/-- C9 counterexample: for the single-block list `[C9block]` whose height is
negative, the computed rectangle has bottom = 5 < top = 8, violating the
claimed unconditional postcondition bottom ≥ top. -/
theorem C9_counterexample :
    ¬ ((getCoveringRectangle [C9block]).top ≤ (getCoveringRectangle [C9block]).bottom) := by
  norm_num [getCoveringRectangle, coveringStep, C9block, sentinel]

/-- C9 (amended): for every non-empty block list whose heights are all
non-negative, the rectangle satisfies bottom ≥ top; and right ≥ left holds
whenever at least one block has a defined non-negative width. -/
theorem C9_postcondition (b : Block) (bs : List Block)
    (hh : ∀ a ∈ b :: bs, 0 ≤ a.height) :
    (getCoveringRectangle (b :: bs)).top ≤ (getCoveringRectangle (b :: bs)).bottom ∧
    ((∃ a ∈ b :: bs, ∃ w, a.width = some w ∧ 0 ≤ w) →
      (getCoveringRectangle (b :: bs)).left ≤ (getCoveringRectangle (b :: bs)).right) := by
  rw [getCoveringRectangle_eq]
  dsimp only
  constructor
  · have h1 : (b :: bs).foldl (minStep fun a => a.bottom - a.height) sentinel ≤
        b.bottom - b.height :=
      foldl_minStep_le_of_mem _ (List.mem_cons_self _ _) _
    have h2 : b.bottom ≤ (b :: bs).foldl (maxStep Block.bottom) 0 :=
      foldl_maxStep_le _ (List.mem_cons_self _ _) _
    have h3 : 0 ≤ b.height := hh b (List.mem_cons_self _ _)
    linarith
  · rintro ⟨a, ha, w, hw, hw0⟩
    have h1 : (b :: bs).foldl (minStep Block.left) sentinel ≤ a.left :=
      foldl_minStep_le_of_mem _ ha _
    have h2 : a.left + w ≤ (b :: bs).foldl stepRight 0 :=
      foldl_stepRight_le ha hw _
    linarith

/-- Block with non-negative height and width for the C9 witness. -/
def C9wblock : Block :=
  { type := "horizontal", fileNumber := 1, file := none, line := 1,
    left := 2, bottom := 3, width := some 4, height := 1, depth := none, page := 1 }

/-- Witness for C9 at a concrete one-block list. -/
theorem C9_witness :
    (getCoveringRectangle [C9wblock]).top ≤ (getCoveringRectangle [C9wblock]).bottom ∧
    ((∃ a ∈ [C9wblock], ∃ w, a.width = some w ∧ 0 ≤ w) →
      (getCoveringRectangle [C9wblock]).left ≤ (getCoveringRectangle [C9wblock]).right) :=
  C9_postcondition C9wblock [] (by
    intro a ha
    rw [List.mem_singleton.mp ha]
    norm_num [C9wblock])

/-! Claim C10. -/

/-- C10: forward past the last recorded line — for every model and file path
present in the index, if the requested line is strictly greater than every
recorded line, the search for the first recorded line ≥ the requested line
finds no index: neither the exact path nor the interpolation path produces a
coordinate, and the failure is the runtime TypeError of the out-of-range
reads, not the `SyncTexJsError` LookupError documented for an absent file. -/
theorem C10_forward_past_last (m : PdfSyncObject) (fp : String) (line : Nat)
    (lpb : LineMap)
    (hfp : objGet m.blockNumberLine fp = some lpb)
    (hall : ∀ l ∈ lpb.map Prod.fst, l < line) :
    syncTexJsForward line fp m = .error (.typeError typeErrorMsg) := by
  have hnone : jsFindIndex (fun x => decide (line ≤ x)) (objKeysNat lpb) = none := by
    apply jsFindIndex_eq_none
    intro a ha
    exact decide_eq_false (not_le_of_lt (hall a (mem_objKeysNat.mp ha)))
  unfold syncTexJsForward
  rw [hfp]
  dsimp only
  rw [hnone]

/-- Element of the C10 witness model (recorded line 3). -/
def C10element : Block :=
  { type := "x", fileNumber := 1, file := some "main.tex", line := 3,
    left := 0, bottom := 10, width := some 10, height := 10, depth := none, page := 1 }

/-- Witness model for C10. -/
def C10model : PdfSyncObject :=
  { offsetX := 0, offsetY := 0, version := "", files := [(1, "main.tex")], pages := [],
    blockNumberLine := [("main.tex", [(3, [(1, [C10element])])])],
    hBlocks := [], numberPages := 1 }

/-- Witness for C10: querying line 99, past the only recorded line 3. -/
theorem C10_witness :
    syncTexJsForward 99 "main.tex" C10model = .error (.typeError typeErrorMsg) :=
  C10_forward_past_last C10model "main.tex" 99 [(3, [(1, [C10element])])]
    (by decide) (by decide)

end SyncTexJs
